import Mathlib

/-!
Verification of the straight-line amortization program in `src/main.py`
(class `LongTermDeferredExpense`).

Currency amounts are modelled as exact rationals (ℚ), matching the spec's
decimal view of amounts; the builtin round-to-2-decimals used by the source
is modelled as round-half-to-even (banker's rounding), which is the
semantics of the builtin round. Dates are opaque and modelled as naturals.
-/

/-- Round a rational to the nearest integer, ties to even: the semantics of
the builtin round used at `src/main.py:35`. -/
def rne (y : ℚ) : ℤ :=
  if y - Int.floor y < 1/2 then Int.floor y
  else if 1/2 < y - Int.floor y then Int.floor y + 1
  else if Int.floor y % 2 = 0 then Int.floor y else Int.floor y + 1

/-- Round to two decimal places, as in the source: round(x, 2). -/
def round2 (x : ℚ) : ℚ := ((rne (100 * x) : ℤ) : ℚ) / 100

/-- One entry of the amortization history (the dict built at
`src/main.py:70-74`). -/
structure Transaction where
  date : Nat
  amortized_amount : ℚ
  remaining_book_value : ℚ
deriving DecidableEq

/-- The state of a `LongTermDeferredExpense` object (fields assigned in
`__init__`, `src/main.py:24-38`). -/
structure LongTermDeferredExpense where
  name : String
  total_cost : ℚ
  amortization_period_months : ℤ
  start_date : Nat
  book_value : ℚ
  monthly_amortization_amount : ℚ
  amortization_history : List Transaction
deriving DecidableEq

/-- The state produced by a successful construction. -/
def mkAsset (name : String) (total_cost : ℚ) (amortization_period_months : ℤ)
    (start_date : Nat) : LongTermDeferredExpense :=
  { name := name
    total_cost := total_cost
    amortization_period_months := amortization_period_months
    start_date := start_date
    book_value := total_cost
    monthly_amortization_amount := round2 (total_cost / (amortization_period_months : ℚ))
    amortization_history := [] }

/-- `__init__` (`src/main.py:11-48`): validates the period count, then sets
up the state; raising ValueError is modelled as `Except.error`. -/
def LongTermDeferredExpense.init (name : String) (total_cost : ℚ)
    (amortization_period_months : ℤ) (start_date : Nat) :
    Except String LongTermDeferredExpense :=
  if amortization_period_months ≤ 0 then
    Except.error "Amortization period must be greater than zero."
  else
    Except.ok (mkAsset name total_cost amortization_period_months start_date)

/-- `amortize_for_period` (`src/main.py:50-82`): no-op when the book value
is already ≤ 0, otherwise amortize `min(book_value, monthly_amortization_amount)`
and append a transaction. Printing is ignored; the state change is total. -/
def LongTermDeferredExpense.amortize_for_period (e : LongTermDeferredExpense)
    (amortization_date : Nat) : LongTermDeferredExpense :=
  if e.book_value ≤ 0 then e
  else
    { e with
      book_value := e.book_value - min e.book_value e.monthly_amortization_amount
      amortization_history := e.amortization_history ++
        [{ date := amortization_date
           amortized_amount := min e.book_value e.monthly_amortization_amount
           remaining_book_value :=
             e.book_value - min e.book_value e.monthly_amortization_amount }] }

/-- `get_status` (`src/main.py:84-89`): reads and reports `book_value`,
touching nothing. Modelled as returning the reported value with the
(unchanged) state. -/
def LongTermDeferredExpense.get_status (e : LongTermDeferredExpense) :
    ℚ × LongTermDeferredExpense :=
  (e.book_value, e)

/-- Run a finite sequence of `amortize_for_period` calls, one per date. -/
def runDates (e : LongTermDeferredExpense) (ds : List Nat) :
    LongTermDeferredExpense :=
  ds.foldl LongTermDeferredExpense.amortize_for_period e

/-- Total amount amortized so far, `sum(t[amortized_amount] for t in history)`
as in `src/main.py:130`. -/
def sumAmortized (e : LongTermDeferredExpense) : ℚ :=
  (e.amortization_history.map Transaction.amortized_amount).sum

/-- The asset built by the simulation in §8 of the spec for residue
absorption: total cost 100, three periods. -/
def asset100x3 : LongTermDeferredExpense := mkAsset "renovation" 100 3 0

/-! ### Helper lemmas about rounding -/

lemma rne_intCast (n : ℤ) : rne (n : ℚ) = n := by
  unfold rne
  rw [Int.floor_intCast, if_pos (by rw [sub_self]; norm_num)]

lemma rne_nonneg (y : ℚ) (hy : 0 ≤ y) : 0 ≤ rne y := by
  have h0 : 0 ≤ Int.floor y := Int.floor_nonneg.mpr hy
  unfold rne
  split_ifs <;> omega

lemma round2_nonneg (x : ℚ) (hx : 0 ≤ x) : 0 ≤ round2 x := by
  unfold round2
  have h1 : 0 ≤ rne (100 * x) := rne_nonneg _ (by positivity)
  have h2 : (0 : ℚ) ≤ ((rne (100 * x) : ℤ) : ℚ) := Int.cast_nonneg.mpr h1
  positivity

lemma round2_div100 (k : ℤ) : round2 ((k : ℚ) / 100) = (k : ℚ) / 100 := by
  unfold round2
  have h : (100 : ℚ) * ((k : ℚ) / 100) = (k : ℚ) := by ring
  rw [h, rne_intCast]

/-! ### Helper lemmas about one amortization step -/

lemma amortize_noop (e : LongTermDeferredExpense) (d : Nat)
    (h : e.book_value ≤ 0) : e.amortize_for_period d = e := by
  unfold LongTermDeferredExpense.amortize_for_period
  rw [if_pos h]

lemma amortize_monthly (e : LongTermDeferredExpense) (d : Nat) :
    (e.amortize_for_period d).monthly_amortization_amount =
      e.monthly_amortization_amount := by
  unfold LongTermDeferredExpense.amortize_for_period
  split_ifs <;> rfl

lemma amortize_book (e : LongTermDeferredExpense) (d : Nat)
    (h1 : 0 ≤ e.book_value) (h2 : 0 ≤ e.monthly_amortization_amount) :
    (e.amortize_for_period d).book_value =
      max (e.book_value - e.monthly_amortization_amount) 0 := by
  unfold LongTermDeferredExpense.amortize_for_period
  split_ifs with h
  · have hb : e.book_value = 0 := le_antisymm h h1
    rw [hb, max_eq_right (by linarith)]
  · show e.book_value - min e.book_value e.monthly_amortization_amount = _
    rcases le_total e.book_value e.monthly_amortization_amount with hc | hc
    · rw [min_eq_left hc, sub_self, max_eq_right (sub_nonpos.mpr hc)]
    · rw [min_eq_right hc, max_eq_left (sub_nonneg.mpr hc)]

lemma amortize_conserve (e : LongTermDeferredExpense) (d : Nat) :
    sumAmortized (e.amortize_for_period d) + (e.amortize_for_period d).book_value
      = sumAmortized e + e.book_value := by
  unfold LongTermDeferredExpense.amortize_for_period sumAmortized
  split_ifs with h
  · rfl
  · simp

/-! ### Helper lemmas about finite call sequences -/

lemma runDates_nil (e : LongTermDeferredExpense) : runDates e [] = e := rfl

lemma runDates_cons (e : LongTermDeferredExpense) (d : Nat) (ds : List Nat) :
    runDates e (d :: ds) = runDates (e.amortize_for_period d) ds := rfl

lemma runDates_append (e : LongTermDeferredExpense) (ds ds2 : List Nat) :
    runDates e (ds ++ ds2) = runDates (runDates e ds) ds2 := by
  simp [runDates]

lemma runDates_noop (ds : List Nat) : ∀ e : LongTermDeferredExpense,
    e.book_value ≤ 0 → runDates e ds = e := by
  induction ds with
  | nil => intro e _; rfl
  | cons d ds ih =>
    intro e h
    rw [runDates_cons, amortize_noop e d h, ih e h]

lemma runDates_conserve (ds : List Nat) : ∀ e : LongTermDeferredExpense,
    sumAmortized (runDates e ds) + (runDates e ds).book_value
      = sumAmortized e + e.book_value := by
  induction ds with
  | nil => intro e; rfl
  | cons d ds ih =>
    intro e
    rw [runDates_cons, ih, amortize_conserve]

lemma iterStep (b m L : ℚ) (hm : 0 ≤ m) (hL : 0 ≤ L) :
    max (max (b - m) 0 - L * m) 0 = max (b - (L + 1) * m) 0 := by
  have hLm : 0 ≤ L * m := mul_nonneg hL hm
  rcases le_total (b - m) 0 with h | h
  · rw [max_eq_right h, zero_sub, max_eq_right (by linarith)]
    have h3 : b - (L + 1) * m ≤ 0 := by
      have he : b - (L + 1) * m = (b - m) - L * m := by ring
      rw [he]; linarith
    rw [max_eq_right h3]
  · rw [max_eq_left h]
    congr 1
    ring

lemma runDates_book (ds : List Nat) : ∀ e : LongTermDeferredExpense,
    0 ≤ e.book_value → 0 ≤ e.monthly_amortization_amount →
    (runDates e ds).book_value =
      max (e.book_value - (ds.length : ℚ) * e.monthly_amortization_amount) 0 := by
  induction ds with
  | nil =>
    intro e h1 _
    simp [runDates, max_eq_left h1]
  | cons d ds ih =>
    intro e h1 h2
    rw [runDates_cons,
      ih _ (by rw [amortize_book e d h1 h2]; exact le_max_right _ _)
        (by rw [amortize_monthly]; exact h2),
      amortize_monthly, amortize_book e d h1 h2,
      iterStep _ _ _ h2 (by positivity)]
    congr 2
    simp only [List.length_cons]
    push_cast
    ring

/-! ### Constructor inversion -/

lemma init_ok_iff (nm : String) (c : ℚ) (mo : ℤ) (sd : Nat)
    (e : LongTermDeferredExpense) :
    LongTermDeferredExpense.init nm c mo sd = Except.ok e ↔
      0 < mo ∧ e = mkAsset nm c mo sd := by
  unfold LongTermDeferredExpense.init
  split_ifs with h
  · constructor
    · intro hcon
      exact absurd hcon (by simp)
    · rintro ⟨h1, -⟩
      omega
  · constructor
    · intro hok
      refine ⟨by omega, ?_⟩
      injection hok with hok
      exact hok.symm
    · rintro ⟨-, rfl⟩
      rfl

lemma runDates_monthly (ds : List Nat) : ∀ e : LongTermDeferredExpense,
    (runDates e ds).monthly_amortization_amount = e.monthly_amortization_amount := by
  induction ds with
  | nil => intro e; rfl
  | cons d ds ih =>
    intro e
    rw [runDates_cons, ih, amortize_monthly]

/-! ### Spec-side rounding definitions, for comparison with the source -/

/-- Rounding to two decimal places with ties going up, the round-half-up
accounting convention named by the spec. -/
def roundHalfUp2 (x : ℚ) : ℚ :=
  ((Int.floor (100 * x + 1/2) : ℤ) : ℚ) / 100

/-- Rounding to two decimal places with ties going to the even neighbour,
the round-half-to-even alternative named by the spec. -/
def roundHalfEven2 (x : ℚ) : ℚ :=
  if 100 * x - Int.floor (100 * x) < 1/2 then ((Int.floor (100 * x) : ℤ) : ℚ) / 100
  else if 1/2 < 100 * x - Int.floor (100 * x) then
    ((Int.floor (100 * x) + 1 : ℤ) : ℚ) / 100
  else if 2 ∣ Int.floor (100 * x) then ((Int.floor (100 * x) : ℤ) : ℚ) / 100
  else ((Int.floor (100 * x) + 1 : ℤ) : ℚ) / 100

lemma round2_eq_roundHalfEven2 (x : ℚ) : round2 x = roundHalfEven2 x := by
  unfold round2 rne roundHalfEven2
  simp only [Int.dvd_iff_emod_eq_zero]
  split_ifs <;> rfl

/-- The projection of a transaction that forgets its date. -/
def stripDate (t : Transaction) : ℚ × ℚ :=
  (t.amortized_amount, t.remaining_book_value)

/-! ### Claim theorems -/

/-- Claim C1: conservation of cost. For every validly constructed asset and
every finite sequence of calls to `amortize_for_period`, the sum of the
amortized amounts recorded in the history plus the current book value
equals the total cost. -/
theorem conservation_of_cost (nm : String) (c : ℚ) (mo : ℤ) (sd : Nat)
    (e : LongTermDeferredExpense)
    (h : LongTermDeferredExpense.init nm c mo sd = Except.ok e)
    (ds : List Nat) :
    sumAmortized (runDates e ds) + (runDates e ds).book_value = c := by
  obtain ⟨-, rfl⟩ := (init_ok_iff nm c mo sd e).mp h
  rw [runDates_conserve]
  simp [mkAsset, sumAmortized]

/-- Witness for C1 at total cost 100, three periods, four calls. -/
theorem conservation_of_cost_witness :
    sumAmortized (runDates asset100x3 [0, 1, 2, 3]) +
      (runDates asset100x3 [0, 1, 2, 3]).book_value = 100 :=
  conservation_of_cost "renovation" 100 3 0 asset100x3
    (by rw [init_ok_iff]; exact ⟨by norm_num, rfl⟩) [0, 1, 2, 3]

/-- Claim C4: idempotent terminal state. Whenever the book value is ≤ 0, a
call to `amortize_for_period` returns the state entirely unchanged: no
history entry, no mutation of any field, for every supplied date. -/
theorem terminal_noop (e : LongTermDeferredExpense) (d : Nat)
    (h : e.book_value ≤ 0) : e.amortize_for_period d = e :=
  amortize_noop e d h

/-- A fully amortized zero-cost asset. -/
def zeroAsset : LongTermDeferredExpense := mkAsset "zero" 0 1 0

/-- Witness for C4 on a zero-cost asset. -/
theorem terminal_noop_witness : zeroAsset.amortize_for_period 5 = zeroAsset :=
  terminal_noop zeroAsset 5 (by norm_num [zeroAsset, mkAsset])

/-- Claim C8: the status query is a pure read. `get_status` reports the
current book value and leaves the state untouched, with no failure mode. -/
theorem status_pure_read (e : LongTermDeferredExpense) :
    e.get_status = (e.book_value, e) := rfl

/-- Claim C9: date noninterference. The supplied date never influences the
computed amount or the resulting book value; any two dates produce the same
book value and histories that agree except on the recorded date. -/
theorem date_noninterference (e : LongTermDeferredExpense) (d1 d2 : Nat) :
    (e.amortize_for_period d1).book_value = (e.amortize_for_period d2).book_value ∧
    (e.amortize_for_period d1).amortization_history.map stripDate =
      (e.amortize_for_period d2).amortization_history.map stripDate := by
  unfold LongTermDeferredExpense.amortize_for_period
  split_ifs <;> simp [stripDate]

/-- Claim C2 as stated is false on the code. With total cost 100 over 3
periods the third call amortizes min(33.34, 33.33) = 33.33, not 33.34,
leaving a book value of 0.01 rather than 0, and the three-period sum is
99.99 rather than 100. -/
theorem residue_absorption_counterexample :
    LongTermDeferredExpense.init "renovation" 100 3 0 = Except.ok asset100x3 ∧
    asset100x3.monthly_amortization_amount = 3333/100 ∧
    (runDates asset100x3 [0, 1]).book_value = 3334/100 ∧
    (runDates asset100x3 [0, 1, 2]).amortization_history.map
        Transaction.amortized_amount = [3333/100, 3333/100, 3333/100] ∧
    (runDates asset100x3 [0, 1, 2]).book_value = 1/100 ∧
    (runDates asset100x3 [0, 1, 2]).book_value ≠ 0 ∧
    sumAmortized (runDates asset100x3 [0, 1, 2]) = 9999/100 := by
  refine ⟨by rw [init_ok_iff]; exact ⟨by norm_num, rfl⟩, ?_, ?_, ?_, ?_, ?_, ?_⟩ <;>
    norm_num [asset100x3, mkAsset, round2, rne, runDates, List.foldl,
      LongTermDeferredExpense.amortize_for_period, min_def, sumAmortized]

/-- Claim C2, amended: with total cost 100 over 3 periods the periodic
amount is 33.33; after two calls the book value is 33.34; the third call
amortizes only 33.33 (the code caps each period at the periodic amount),
leaving 0.01; a fourth call absorbs the residual 0.01, bringing the book
value to exactly 0, and the sum of the four amortized amounts is exactly
100. -/
theorem residue_absorption_amended :
    asset100x3.monthly_amortization_amount = 3333/100 ∧
    (runDates asset100x3 [0, 1]).book_value = 3334/100 ∧
    (runDates asset100x3 [0, 1, 2, 3]).amortization_history.map
        Transaction.amortized_amount = [3333/100, 3333/100, 3333/100, 1/100] ∧
    (runDates asset100x3 [0, 1, 2, 3]).book_value = 0 ∧
    sumAmortized (runDates asset100x3 [0, 1, 2, 3]) = 100 := by
  refine ⟨?_, ?_, ?_, ?_, ?_⟩ <;>
    norm_num [asset100x3, mkAsset, round2, rne, runDates, List.foldl,
      LongTermDeferredExpense.amortize_for_period, min_def, sumAmortized]

/-- An asset whose cost sits exactly on a rounding tie: 0.125 over one
period. -/
def assetEighth : LongTermDeferredExpense := mkAsset "tie" (1/8) 1 0

/-- Claim C5 as stated is false on the code. The builtin round is
round-half-to-even, not round-half-up: constructing with total cost 0.125
and one period yields a periodic amount of 0.12, while round-half-up gives
0.13; the same input also refutes the claim that one period always yields
the total cost itself. -/
theorem rounding_halfup_counterexample :
    LongTermDeferredExpense.init "tie" (1/8) 1 0 = Except.ok assetEighth ∧
    assetEighth.monthly_amortization_amount = 12/100 ∧
    roundHalfUp2 ((1/8 : ℚ) / 1) = 13/100 ∧
    assetEighth.monthly_amortization_amount ≠ roundHalfUp2 ((1/8 : ℚ) / 1) ∧
    assetEighth.monthly_amortization_amount ≠ assetEighth.total_cost := by
  refine ⟨by rw [init_ok_iff]; exact ⟨by norm_num, rfl⟩, ?_, ?_, ?_, ?_⟩ <;>
    norm_num [assetEighth, mkAsset, round2, rne, roundHalfUp2]

/-- Claim C5, amended: at construction the periodic amount is the total
cost divided by the period count rounded to 2 decimal places with
round-half-to-even semantics; for one period it equals the total cost
whenever the total cost is itself a 2-decimal currency amount; and for
total cost 120000 over 60 periods it is exactly 2000. -/
theorem rounding_mode_amended :
    (∀ (nm : String) (c : ℚ) (mo : ℤ) (sd : Nat) (e : LongTermDeferredExpense),
      LongTermDeferredExpense.init nm c mo sd = Except.ok e →
        e.monthly_amortization_amount = roundHalfEven2 (c / (mo : ℚ)) ∧
        (mo = 1 → (∃ k : ℤ, c = (k : ℚ) / 100) →
          e.monthly_amortization_amount = c)) ∧
    (∀ (nm : String) (sd : Nat) (e : LongTermDeferredExpense),
      LongTermDeferredExpense.init nm 120000 60 sd = Except.ok e →
        e.monthly_amortization_amount = 2000) := by
  constructor
  · intro nm c mo sd e h
    obtain ⟨-, rfl⟩ := (init_ok_iff nm c mo sd e).mp h
    constructor
    · exact round2_eq_roundHalfEven2 _
    · rintro rfl ⟨k, rfl⟩
      show round2 (((k : ℚ) / 100) / ((1 : ℤ) : ℚ)) = (k : ℚ) / 100
      rw [Int.cast_one, div_one, round2_div100]
  · intro nm sd e h
    obtain ⟨-, rfl⟩ := (init_ok_iff nm 120000 60 sd e).mp h
    show round2 ((120000 : ℚ) / ((60 : ℤ) : ℚ)) = 2000
    norm_num [round2, rne]

/-- The five-year, 120000-cost asset of the simulation in the source. -/
def asset120000x60 : LongTermDeferredExpense := mkAsset "office" 120000 60 0

/-- Witness for the amended C5: the simulation asset's periodic amount is
exactly 2000. -/
theorem rounding_mode_amended_witness :
    asset120000x60.monthly_amortization_amount = 2000 :=
  rounding_mode_amended.2 "office" 0 asset120000x60
    (by rw [init_ok_iff]; exact ⟨by norm_num, rfl⟩)

/-- Claim C3: monotone termination. For a validly constructed asset with a
positive periodic amount and a non-negative total cost, any run of at least
ceil(total_cost / periodic_amount) calls drives the book value to exactly
0, and every further call leaves the whole state, history included,
unchanged. -/
theorem monotone_termination (nm : String) (c : ℚ) (mo : ℤ) (sd : Nat)
    (e : LongTermDeferredExpense)
    (h : LongTermDeferredExpense.init nm c mo sd = Except.ok e)
    (hc : 0 ≤ c)
    (hm : 0 < e.monthly_amortization_amount)
    (ds : List Nat)
    (hlen : Int.ceil (c / e.monthly_amortization_amount) ≤ (ds.length : ℤ)) :
    (runDates e ds).book_value = 0 ∧
    ∀ ds2 : List Nat, runDates (runDates e ds) ds2 = runDates e ds := by
  obtain ⟨-, rfl⟩ := (init_ok_iff nm c mo sd e).mp h
  have hbook := runDates_book ds (mkAsset nm c mo sd) hc (le_of_lt hm)
  rw [show (mkAsset nm c mo sd).book_value = c from rfl] at hbook
  have hq : c / (mkAsset nm c mo sd).monthly_amortization_amount ≤
      ((ds.length : ℤ) : ℚ) := Int.ceil_le.mp hlen
  have hge : c ≤ (ds.length : ℚ) * (mkAsset nm c mo sd).monthly_amortization_amount := by
    push_cast at hq
    calc c = (c / (mkAsset nm c mo sd).monthly_amortization_amount) *
        (mkAsset nm c mo sd).monthly_amortization_amount := by
          field_simp
      _ ≤ (ds.length : ℚ) * (mkAsset nm c mo sd).monthly_amortization_amount :=
          mul_le_mul_of_nonneg_right hq (le_of_lt hm)
  have hzero : (runDates (mkAsset nm c mo sd) ds).book_value = 0 := by
    rw [hbook, max_eq_right (by linarith)]
  exact ⟨hzero, fun ds2 => runDates_noop ds2 _ (le_of_eq hzero)⟩

/-- Witness for C3: four calls fully amortize the 100-over-3 asset. -/
theorem monotone_termination_witness :
    (runDates asset100x3 [0, 1, 2, 3]).book_value = 0 :=
  (monotone_termination "renovation" 100 3 0 asset100x3
    (by rw [init_ok_iff]; exact ⟨by norm_num, rfl⟩)
    (by norm_num)
    (by norm_num [asset100x3, mkAsset, round2, rne])
    [0, 1, 2, 3]
    (by norm_num [asset100x3, mkAsset, round2, rne, Int.ceil_le])).1

/-- Claim C6: construction validation. Construction fails (with the
ValueError of `src/main.py:22`) exactly when the period count is ≤ 0, and
succeeds exactly when it is ≥ 1; the other operations of the embedding are
total functions. -/
theorem construction_validation (nm : String) (c : ℚ) (mo : ℤ) (sd : Nat) :
    ((∃ msg, LongTermDeferredExpense.init nm c mo sd = Except.error msg) ↔ mo ≤ 0) ∧
    ((∃ e, LongTermDeferredExpense.init nm c mo sd = Except.ok e) ↔ 0 < mo) := by
  unfold LongTermDeferredExpense.init
  split_ifs with h
  · refine ⟨by simp [h], ⟨fun hcon => ?_, fun h0 => absurd h (not_le.mpr h0)⟩⟩
    obtain ⟨e1, he⟩ := hcon
    exact he.elim
  · refine ⟨⟨fun hcon => ?_, fun h0 => absurd h0 h⟩, by simp [not_le.mp h]⟩
    obtain ⟨m1, he⟩ := hcon
    exact he.elim

/-- Claim C7: book-value bounds and monotonicity. A validly constructed
asset with non-negative total cost starts with book value equal to the
total cost, keeps it within [0, total_cost] after every sequence of calls,
and each further call never increases it. -/
theorem book_value_bounds (nm : String) (c : ℚ) (mo : ℤ) (sd : Nat)
    (e : LongTermDeferredExpense)
    (h : LongTermDeferredExpense.init nm c mo sd = Except.ok e)
    (hc : 0 ≤ c) :
    e.book_value = c ∧
    ∀ ds : List Nat,
      0 ≤ (runDates e ds).book_value ∧
      (runDates e ds).book_value ≤ c ∧
      ∀ d : Nat,
        (runDates e (ds ++ [d])).book_value ≤ (runDates e ds).book_value := by
  obtain ⟨hmo, rfl⟩ := (init_ok_iff nm c mo sd e).mp h
  have hm0 : 0 ≤ (mkAsset nm c mo sd).monthly_amortization_amount := by
    apply round2_nonneg
    apply div_nonneg hc
    exact_mod_cast le_of_lt hmo
  refine ⟨rfl, fun ds => ?_⟩
  have hb := runDates_book ds (mkAsset nm c mo sd) hc hm0
  rw [show (mkAsset nm c mo sd).book_value = c from rfl] at hb
  have hnn : 0 ≤ (runDates (mkAsset nm c mo sd) ds).book_value := by
    rw [hb]
    exact le_max_right _ _
  refine ⟨hnn, ?_, ?_⟩
  · rw [hb]
    apply max_le ?_ hc
    have hLm : 0 ≤ (ds.length : ℚ) * (mkAsset nm c mo sd).monthly_amortization_amount :=
      mul_nonneg (by positivity) hm0
    linarith
  · intro d
    rw [runDates_append,
      show runDates (runDates (mkAsset nm c mo sd) ds) [d] =
        (runDates (mkAsset nm c mo sd) ds).amortize_for_period d from rfl,
      amortize_book _ d hnn (by rw [runDates_monthly]; exact hm0)]
    apply max_le ?_ hnn
    apply sub_le_self
    rw [runDates_monthly]
    exact hm0

/-- Witness for C7 after two calls on the 100-over-3 asset. -/
theorem book_value_bounds_witness :
    0 ≤ (runDates asset100x3 [0, 1]).book_value :=
  ((book_value_bounds "renovation" 100 3 0 asset100x3
    (by rw [init_ok_iff]; exact ⟨by norm_num, rfl⟩) (by norm_num)).2 [0, 1]).1

lemma amortize_zero_monthly (e : LongTermDeferredExpense) (d : Nat)
    (h : 0 < e.book_value) (hm : e.monthly_amortization_amount = 0) :
    e.amortize_for_period d =
      { e with amortization_history := e.amortization_history ++
          [{ date := d, amortized_amount := 0,
             remaining_book_value := e.book_value }] } := by
  unfold LongTermDeferredExpense.amortize_for_period
  rw [if_neg (not_le.mpr h), hm]
  simp [min_eq_right (le_of_lt h)]

lemma runDates_zero_monthly (ds : List Nat) : ∀ e : LongTermDeferredExpense,
    0 < e.book_value → e.monthly_amortization_amount = 0 →
    (runDates e ds).book_value = e.book_value ∧
    (runDates e ds).amortization_history.length =
      e.amortization_history.length + ds.length ∧
    ∀ t ∈ (runDates e ds).amortization_history,
      t.amortized_amount = 0 ∨ t ∈ e.amortization_history := by
  induction ds with
  | nil =>
    intro e _ _
    exact ⟨rfl, rfl, fun t ht => Or.inr ht⟩
  | cons d ds ih =>
    intro e h hm
    rw [runDates_cons, amortize_zero_monthly e d h hm]
    obtain ⟨ih1, ih2, ih3⟩ := ih
      { e with amortization_history := e.amortization_history ++
          [{ date := d, amortized_amount := 0,
             remaining_book_value := e.book_value }] } h hm
    refine ⟨ih1, ?_, ?_⟩
    · rw [ih2]
      simp
      omega
    · intro t ht
      rcases ih3 t ht with h0 | hmem
      · exact Or.inl h0
      · rcases List.mem_append.mp hmem with hold | hnew
        · exact Or.inr hold
        · left
          rcases List.mem_singleton.mp hnew with rfl
          rfl

/-- Claim C10: a zero periodic amount never terminates. When the total
cost is positive but the rounded periodic amount is 0 (for instance 0.01
over 3 periods), every call appends a record whose amortized amount is 0,
the book value never moves from the total cost and in particular never
reaches 0, while the history grows by one entry per call. -/
theorem zero_periodic_no_progress (nm : String) (c : ℚ) (mo : ℤ) (sd : Nat)
    (e : LongTermDeferredExpense)
    (h : LongTermDeferredExpense.init nm c mo sd = Except.ok e)
    (hc : 0 < c)
    (hm : round2 (c / (mo : ℚ)) = 0)
    (ds : List Nat) :
    (runDates e ds).book_value = c ∧
    (runDates e ds).book_value ≠ 0 ∧
    (runDates e ds).amortization_history.length = ds.length ∧
    ∀ t ∈ (runDates e ds).amortization_history, t.amortized_amount = 0 := by
  obtain ⟨-, rfl⟩ := (init_ok_iff nm c mo sd e).mp h
  have hmm : (mkAsset nm c mo sd).monthly_amortization_amount = 0 := hm
  obtain ⟨h1, h2, h3⟩ := runDates_zero_monthly ds (mkAsset nm c mo sd) hc hmm
  refine ⟨h1, by rw [h1]; exact ne_of_gt hc, by rw [h2]; simp [mkAsset], fun t ht => ?_⟩
  rcases h3 t ht with h0 | hmem
  · exact h0
  · exact absurd hmem (List.not_mem_nil t)

/-- An asset of one cent over three periods, whose rounded periodic amount
is zero. -/
def assetPenny : LongTermDeferredExpense := mkAsset "penny" (1/100) 3 0

/-- Witness for C10: two calls on the one-cent asset leave the book value
at 0.01 while the history has grown to two entries. -/
theorem zero_periodic_no_progress_witness :
    (runDates assetPenny [0, 1]).book_value = 1/100 ∧
    (runDates assetPenny [0, 1]).amortization_history.length = 2 :=
  ⟨(zero_periodic_no_progress "penny" (1/100) 3 0 assetPenny
      (by rw [init_ok_iff]; exact ⟨by norm_num, rfl⟩)
      (by norm_num) (by norm_num [round2, rne]) [0, 1]).1,
   (zero_periodic_no_progress "penny" (1/100) 3 0 assetPenny
      (by rw [init_ok_iff]; exact ⟨by norm_num, rfl⟩)
      (by norm_num) (by norm_num [round2, rne]) [0, 1]).2.2.1⟩
